import Mathlib

/-!
# Verification of the pdfmm/PoDoFo core against its specification

This file gives a shallow embedding, in Lean 4, of the parts of the
pdfmm/PoDoFo repository that the specification claims talk about:

* the `PdfVariant` tagged union and its accessors/mutators
  (`src/podofo/base/PdfVariant.cpp`);
* the `PdfDictionary` sorted key/value map, its equality operator,
  key insertion, lookup, removal and the serialization key walk
  (`src/podofo/base/PdfVariant.cpp`, second compilation unit);
* the TrueType subsetter: required-table scan, glyph closure walk,
  glyph renumbering, and the table checksum
  (`src/pdfmm/base/PdfFontTrueTypeSubset.cpp`).

Machine integers are modelled as `Nat`/`Int` with explicit `% 2^32`
where wrap-around matters.  IEEE doubles are modelled as rationals;
every concrete value appearing in a theorem below is exactly
representable, so no rounding is lost.  Fallible code returns
`Except PdfErrorCode`; non-terminating or undefined executions are
modelled through fuel (`Option`-wrapped results, `none` meaning the
execution did not finish within the given fuel).
-/

/-- The PoDoFo/pdfmm error taxonomy, restricted to the codes the embedded
functions can raise (`PdfError.h` / `PdfErrorCode`). -/
inductive PdfErrorCode : Type where
  | invalidDataType
  | invalidHandle
  | changeOnImmutable
  | valueOutOfRange
  | unexpectedEOF
  | unsupportedFontFormat
  | internalLogic
  | invalidEnumValue
  | invalidFontFile
  deriving DecidableEq, Repr

/-- A PDF name is a raw byte sequence (`PdfName`); empty sequences are
allowed.  Bytes are `Nat`s below 256 (the bound is irrelevant to the
claims and is not enforced by the type). -/
abbrev PdfNameT : Type := List Nat

/-- The `PdfVariant` tagged union of `PdfVariant.h`.  Each constructor
carries the variant-level `m_bDirty` and `m_bImmutable` flags.  The
`varray` and `vdict` constructors additionally carry the container's own
dirty flag (`PdfArray`/`PdfDictionary::m_bDirty`), since in the C++ code
the payload object tracks its own dirtiness separately from the owning
variant.  Dictionary entries are the sorted `(PdfName, PdfObject)` pairs
of `m_mapKeys`; `PdfObject` is a `PdfVariant` with an identity, and only
its variant part matters to the claims, so entries hold variants. -/
inductive PdfVariant : Type where
  | vnull (dirty immut : Bool)
  | vbool (b : Bool) (dirty immut : Bool)
  | vnumber (n : Int) (dirty immut : Bool)
  | vreal (q : ℚ) (dirty immut : Bool)
  | vstring (hex : Bool) (bytes : List Nat) (dirty immut : Bool)
  | vname (bytes : List Nat) (dirty immut : Bool)
  | varray (elems : List PdfVariant) (arrDirty : Bool) (dirty immut : Bool)
  | vdict (entries : List (PdfNameT × PdfVariant)) (dictDirty : Bool) (dirty immut : Bool)
  | vreference (objNr genNr : Nat) (dirty immut : Bool)
  | vrawdata (bytes : List Nat) (dirty immut : Bool)
  | vunknown (dirty immut : Bool)

/-- Kind test `PdfVariant::IsReference`. -/
def PdfVariant.isReference : PdfVariant → Bool
  | .vreference _ _ _ _ => true
  | _ => false

/-- Kind test `PdfVariant::IsReal`. -/
def PdfVariant.isReal : PdfVariant → Bool
  | .vreal _ _ _ => true
  | _ => false

/-- Kind test `PdfVariant::IsNumber`. -/
def PdfVariant.isNumber : PdfVariant → Bool
  | .vnumber _ _ _ => true
  | _ => false

/-- The `m_bImmutable` flag of a variant. -/
def PdfVariant.immut : PdfVariant → Bool
  | .vnull _ i => i
  | .vbool _ _ i => i
  | .vnumber _ _ i => i
  | .vreal _ _ i => i
  | .vstring _ _ _ i => i
  | .vname _ _ i => i
  | .varray _ _ _ i => i
  | .vdict _ _ _ i => i
  | .vreference _ _ _ i => i
  | .vrawdata _ _ i => i
  | .vunknown _ i => i

/-- `PdfVariant::GetNumber` (PdfVariant.cpp:450-463): raises
`InvalidDataType` unless the variant is a `Real` or a `Number`; on a
`Real` it returns `static_cast<long>(floor(m_Data.dNumber))`, i.e. the
floor (toward negative infinity) of the stored double, for every sign;
on a `Number` it returns the stored integer.  The C++ cast is the
identity for doubles whose floor is in 64-bit range (the cast is
undefined outside that range; no `ValueOutOfRange` check appears in the
source), so the embedding returns the mathematical floor. -/
def pdfGetNumber : PdfVariant → Except PdfErrorCode Int
  | .vreal q _ _ => .ok ⌊q⌋
  | .vnumber n _ _ => .ok n
  | _ => .error .invalidDataType

/-- `PdfVariant::SetReference` (PdfVariant.cpp:719-731).  The guard is
`if (IsReference()) PODOFO_RAISE_ERROR(ePdfError_InvalidDataType)`: the
setter raises `InvalidDataType` precisely when the variant *is* a
reference.  On any other kind it passes the guard, checks mutability,
and then assigns through `*((PdfReference*)m_Data.pData) = ref`, a
type-punned write that is undefined behaviour for every non-reference
payload; that branch is therefore modelled as `none` (undefined). -/
def pdfSetReference (v : PdfVariant) (_objNr _genNr : Nat) :
    Option (Except PdfErrorCode PdfVariant) :=
  if v.isReference then
    some (.error .invalidDataType)
  else if v.immut then
    some (.error .changeOnImmutable)
  else
    none

/-! ## Real number serialization (PdfVariant::Write, Real case) -/

/-- Decimal digits of a natural number, most significant first
(`Nat.toDigits 10`). -/
def natDecimal (n : Nat) : List Char := Nat.toDigits 10 n

/-- Left-pad a digit list with the character 0 to six places, as the
six-fractional-digit field of a fixed-point rendering requires. -/
def padSix (s : List Char) : List Char :=
  List.replicate (6 - s.length) '0' ++ s

/-- The C-locale fixed-point rendering `oss << std::fixed << d` with the
default precision of six fractional digits, for a rational exactly
representable with six decimals (every concrete value used below is).
The magnitude is split into integer part and six-digit fraction; a
leading minus sign is prepended for negative values. -/
def fixedSixAbs (q : ℚ) : List Char :=
  let scaled : Int := ⌊q * 1000000⌋
  let ip : Int := scaled / 1000000
  let fp : Int := scaled % 1000000
  natDecimal ip.toNat ++ '.' :: padSix (natDecimal fp.toNat)

/-- The full rendering: a leading minus sign for negative values,
otherwise the magnitude rendering. -/
def fixedSix (q : ℚ) : List Char :=
  if q < 0 then '-' :: fixedSixAbs (-q) else fixedSixAbs q

/-- The trailing-zero strip loop of PdfVariant.cpp:240-241
(`while (str[len - 1] == 0x30) --len`), expressed on the reversed
suffix of the rendered string. -/
def stripTrailingZeros (s : List Char) : List Char :=
  (s.reverse.dropWhile (fun c => c == '0')).reverse

/-- The compact-mode post-processing of a rendered real
(PdfVariant.cpp:236-249): when the rendering contains a decimal point,
trailing zeros are stripped, then one trailing bare point is dropped,
and when everything was consumed the single character 0 is written
instead. -/
def compactRealStrip (s : List Char) : List Char :=
  if s.contains '.' then
    let t := stripTrailingZeros s
    let t2 := if t.getLast? = some '.' then t.dropLast else t
    if t2.length = 0 then ['0'] else t2
  else s

/-- The bytes emitted for a `Real` variant in compact mode
(PdfVariant.cpp:220-252): a single space is written unconditionally
(`// Write space before numbers`), followed by the post-processed
fixed-point rendering. -/
def pdfWriteRealCompact (q : ℚ) : List Char :=
  ' ' :: compactRealStrip (fixedSix q)

/-! ## PdfDictionary: sorted map, insertion, lookup, removal,
serialization walk (PdfVariant.cpp second unit, PdfDictionary) -/

/-- Strict lexicographic byte order on PDF names: the order used by
`std::map<PdfName, PdfObject>` through `PdfName::operator<`, which
compares the raw byte sequences (spec section 3, "Names are ordered"). -/
def nameLtB : PdfNameT → PdfNameT → Bool
  | [], [] => false
  | [], _ :: _ => true
  | _ :: _, [] => false
  | a :: as, b :: bs =>
    if a < b then true
    else if b < a then false
    else nameLtB as bs

/-- A standalone `PdfDictionary`: the sorted entry list `m_mapKeys`
plus the dictionary's own `m_bDirty` flag. -/
structure PdfDictionaryS : Type where
  entries : List (PdfNameT × PdfVariant)
  dirty : Bool

/-- `std::map` insertion into the sorted entry list: walk to the first
key not below the new key; replace on an exact match, otherwise insert
before it. -/
def sortedInsertEntry (k : PdfNameT) (v : PdfVariant) :
    List (PdfNameT × PdfVariant) → List (PdfNameT × PdfVariant)
  | [] => [(k, v)]
  | (k0, v0) :: rest =>
    if nameLtB k k0 then (k, v) :: (k0, v0) :: rest
    else if k = k0 then (k, v) :: rest
    else (k0, v0) :: sortedInsertEntry k v rest

/-- `PdfDictionary::AddKey` (PdfVariant.cpp:945-962): inserts the pair,
replacing the mapped value when the key already exists (a failed
`std::map::insert` followed by assignment through the iterator), and
sets the dictionary dirty.  No check rejects the empty name — the
source comments that empty names are legal per the PDF specification.
Ownership propagation concerns the object collection and is outside the
model. -/
def dictAddKey (d : PdfDictionaryS) (k : PdfNameT) (v : PdfVariant) : PdfDictionaryS :=
  { entries := sortedInsertEntry k v d.entries, dirty := true }

/-- Plain lookup in the entry list (`m_mapKeys.find`). -/
def entriesLookup (k : PdfNameT) : List (PdfNameT × PdfVariant) → Option PdfVariant
  | [] => none
  | (k0, v0) :: rest => if k0 = k then some v0 else entriesLookup k rest

/-- `PdfDictionary::getKey` (PdfVariant.cpp:969-979): **before** the map
lookup it tests `if (!key.GetLength()) return NULL;`, so a zero-length
key is rejected outright and the function returns null even when an
entry with the empty name is present. -/
def dictGetKey (d : PdfDictionaryS) (k : PdfNameT) : Option PdfVariant :=
  if k.length = 0 then none
  else entriesLookup k d.entries

/-- `PdfDictionary::HasKey` (PdfVariant.cpp:1070-1076): a direct
`m_mapKeys.find` with no length guard (the source comments that empty
names are legal and must not be checked for). -/
def dictHasKey (d : PdfDictionaryS) (k : PdfNameT) : Bool :=
  (entriesLookup k d.entries).isSome

/-- Erase the entry with the given key from the entry list
(`m_mapKeys.erase(found)`). -/
def entriesErase (k : PdfNameT) : List (PdfNameT × PdfVariant) → List (PdfNameT × PdfVariant)
  | [] => []
  | (k0, v0) :: rest => if k0 = k then rest else (k0, v0) :: entriesErase k rest

/-- `PdfDictionary::RemoveKey` (PdfVariant.cpp:1078-1089): find the key
(no length guard), return false when absent, otherwise erase it, set the
dictionary dirty and return true. -/
def dictRemoveKey (d : PdfDictionaryS) (k : PdfNameT) : PdfDictionaryS × Bool :=
  if (entriesLookup k d.entries).isSome then
    ({ entries := entriesErase k d.entries, dirty := true }, true)
  else (d, false)

/-- The name `/Type` as raw bytes. -/
def keyTypeName : PdfNameT := [0x54, 0x79, 0x70, 0x65]

/-- The sequence of keys `PdfDictionary::Write` (PdfVariant.cpp:1091-1151)
emits between `<<` and `>>`: `/Type` first when present, then every
other key in stored (sorted) order, halting before `keyStop` when a
non-null stop key is given (`none` models `PdfName::KeyNull`).  Each
emitted key is written together with its value; the projection to the
key sequence is all the serialization structure the claims need. -/
def keyStopHits (keyStop : Option PdfNameT) (k : PdfNameT) : Bool :=
  match keyStop with
  | some ks => ks.length != 0 && ks == k
  | none => false

/-- The emission loop of `PdfDictionary::Write`: skip `/Type`, halt at a
hit of the stop key, emit every other key in stored order. -/
def dictWriteWalk (keyStop : Option PdfNameT) : List (PdfNameT × PdfVariant) → List PdfNameT
  | [] => []
  | (k0, _) :: rest =>
    if k0 = keyTypeName then dictWriteWalk keyStop rest
    else if keyStopHits keyStop k0 then []
    else k0 :: dictWriteWalk keyStop rest

/-- The assembled key sequence: the early `/Type`-stop check, the
`/Type`-first emission, then the loop. -/
def dictWriteKeySequence (d : PdfDictionaryS) (keyStop : Option PdfNameT) : List PdfNameT :=
  if keyStopHits keyStop keyTypeName then []
  else
    (if dictHasKey d keyTypeName then [keyTypeName] else []) ++ dictWriteWalk keyStop d.entries

/-! ## Variant and dictionary equality (PdfVariant::operator==,
PdfDictionary::operator==) -/

/-- The `catch (PdfError& e)` block of `PdfVariant::operator==`
(PdfVariant.cpp:421-427): an `InvalidDataType` raised while reading the
right-hand side is converted into the result `false`; every other error
is rethrown. -/
def catchInvalidDataType (r : Except PdfErrorCode Bool) : Except PdfErrorCode Bool :=
  match r with
  | .error .invalidDataType => .ok false
  | x => x

mutual

/-- `PdfVariant::operator==` (PdfVariant.cpp:402-429), with an explicit
fuel bound; `none` means the computation did not finish within the
fuel.  The switch dispatches on the left kind and reads the right-hand
side through the typed getters, whose `InvalidDataType` on a kind
mismatch is caught and turned into `false`; an `Unknown` or `RawData`
left-hand side raises `InvalidDataType` *outside* the catch.  Numeric
reads are lenient exactly as the getters are: `GetNumber` accepts a
`Real` (flooring it) and `GetReal` accepts a `Number`.  `PdfString`
equality (PdfString.cpp is not under src/) is modelled from the spec
(section 3): content bytes and hex flag must both match. -/
def pdfVariantEqFuel : Nat → PdfVariant → PdfVariant → Option (Except PdfErrorCode Bool)
  | 0, _, _ => none
  | _ + 1, .vrawdata _ _ _, _ => some (.error .invalidDataType)
  | _ + 1, .vunknown _ _, _ => some (.error .invalidDataType)
  | _ + 1, .vbool b _ _, r =>
    some (catchInvalidDataType (match r with
      | .vbool b2 _ _ => .ok (b == b2)
      | _ => .error .invalidDataType))
  | _ + 1, .vnumber n _ _, r =>
    some (catchInvalidDataType (match r with
      | .vnumber n2 _ _ => .ok (n == n2)
      | .vreal q2 _ _ => .ok (n == ⌊q2⌋)
      | _ => .error .invalidDataType))
  | _ + 1, .vreal q _ _, r =>
    some (catchInvalidDataType (match r with
      | .vreal q2 _ _ => .ok (q == q2)
      | .vnumber n2 _ _ => .ok (q == (n2 : ℚ))
      | _ => .error .invalidDataType))
  | _ + 1, .vstring hex bytes _ _, r =>
    some (catchInvalidDataType (match r with
      | .vstring h2 b2 _ _ => .ok (hex == h2 && bytes == b2)
      | _ => .error .invalidDataType))
  | _ + 1, .vname bytes _ _, r =>
    some (catchInvalidDataType (match r with
      | .vname b2 _ _ => .ok (bytes == b2)
      | _ => .error .invalidDataType))
  | _ + 1, .vnull _ _, r =>
    some (.ok (match r with
      | .vnull _ _ => true
      | _ => false))
  | _ + 1, .vreference o g _ _, r =>
    some (catchInvalidDataType (match r with
      | .vreference o2 g2 _ _ => .ok (o == o2 && g == g2)
      | _ => .error .invalidDataType))
  | fuel + 1, .varray elems _ _ _, r =>
    (match r with
      | .varray elems2 _ _ _ => (pdfArrayEqFuel fuel elems elems2).map catchInvalidDataType
      | _ => some (catchInvalidDataType (.error .invalidDataType)))
  | fuel + 1, .vdict entries _ _ _, r =>
    (match r with
      | .vdict entries2 _ _ _ => (pdfDictEqCoreFuel fuel entries entries2).map catchInvalidDataType
      | _ => some (catchInvalidDataType (.error .invalidDataType)))
termination_by fuel _ _ => (fuel, 0, 0)

/-- `PdfArray::operator==` (PdfArray.cpp is not under src/).  Modelled
from the spec: element-wise comparison of the two sequences through
`PdfObject` equality, false on a length mismatch. -/
def pdfArrayEqFuel : Nat → List PdfVariant → List PdfVariant → Option (Except PdfErrorCode Bool)
  | _, [], [] => some (.ok true)
  | _, [], _ :: _ => some (.ok false)
  | _, _ :: _, [] => some (.ok false)
  | fuel, x :: xs, y :: ys =>
    match pdfVariantEqFuel fuel x y with
    | none => none
    | some (.error e) => some (.error e)
    | some (.ok false) => some (.ok false)
    | some (.ok true) => pdfArrayEqFuel fuel xs ys
termination_by fuel xs _ => (fuel, 1, xs.length)

/-- The body of `PdfDictionary::operator==` (PdfVariant.cpp:900-932)
after the pointer-identity shortcut: false on a size mismatch, then the
iterator loop. -/
def pdfDictEqCoreFuel (fuel : Nat) (x y : List (PdfNameT × PdfVariant)) :
    Option (Except PdfErrorCode Bool) :=
  if x.length ≠ y.length then some (.ok false)
  else pdfDictEqLoopFuel fuel x y
termination_by (fuel, 2, 0)

/-- The comparison loop of `PdfDictionary::operator==`
(PdfVariant.cpp:913-931).  The iterators `thisIt` and `rhsIt` are
declared `const` and copied once before the loop; **no statement in the
loop body advances them**, so every iteration re-examines the first
entries of both maps.  The recursive call therefore passes `x` and `y`
unchanged and only the fuel shrinks; `none` models the loop failing to
terminate.  After the loop, `PODOFO_RAISE_LOGIC_IF` raises
`InternalLogic` when exactly one iterator is at its end. -/
def pdfDictEqLoopFuel : Nat → List (PdfNameT × PdfVariant) → List (PdfNameT × PdfVariant) →
    Option (Except PdfErrorCode Bool)
  | 0, _, _ => none
  | _ + 1, [], [] => some (.ok true)
  | _ + 1, [], _ :: _ => some (.error .internalLogic)
  | _ + 1, _ :: _, [] => some (.error .internalLogic)
  | fuel + 1, (k1, v1) :: t1, (k2, v2) :: t2 =>
    if k1 ≠ k2 then some (.ok false)
    else
      match pdfVariantEqFuel fuel v1 v2 with
      | none => none
      | some (.error e) => some (.error e)
      | some (.ok false) => some (.ok false)
      | some (.ok true) => pdfDictEqLoopFuel fuel ((k1, v1) :: t1) ((k2, v2) :: t2)
termination_by fuel _ _ => (fuel, 1, 0)

end

/-- `PdfDictionary::operator==` (PdfVariant.cpp:900-932) on two
standalone dictionaries.  `sameObj` models the `this == &rhs`
pointer-identity shortcut, which structural values cannot express; for
two distinct dictionary objects it is `false`. -/
def pdfDictionaryEqFuel (sameObj : Bool) (a b : PdfDictionaryS) (fuel : Nat) :
    Option (Except PdfErrorCode Bool) :=
  if sameObj then some (.ok true)
  else pdfDictEqCoreFuel fuel a.entries b.entries

/-! ## Dirty bookkeeping and copy construction
(PdfVariant.cpp:130-136, 313-375, 733-793; PdfDictionary 879-898,
1153-1187).  `PdfArray`'s dirty handling (PdfArray.cpp is not under
src/) is modelled from the spec: invariant I2 (container dirty iff its
own flag or any child is dirty) and the section 9 note that
`SetDirty(false)` propagates to children for Array and Dictionary. -/

mutual

/-- `PdfVariant::IsDirty` (PdfVariant.cpp:733-762): true when the
variant's own `m_bDirty` is set; otherwise Array and Dictionary payloads
report their own dirtiness (`m_Data.pData->IsDirty()`), which is the
payload's flag or any child's dirtiness
(`PdfDictionary::IsDirty`, PdfVariant.cpp:1153-1171). -/
def pdfVariantIsDirty : PdfVariant → Bool
  | .varray elems arrDirty d _ => d || (arrDirty || pdfElemsAnyDirty elems)
  | .vdict entries dictDirty d _ => d || (dictDirty || pdfEntriesAnyDirty entries)
  | .vnull d _ => d
  | .vbool _ d _ => d
  | .vnumber _ d _ => d
  | .vreal _ d _ => d
  | .vstring _ _ d _ => d
  | .vname _ d _ => d
  | .vreference _ _ d _ => d
  | .vrawdata _ d _ => d
  | .vunknown d _ => d

/-- Any element of an array payload dirty. -/
def pdfElemsAnyDirty : List PdfVariant → Bool
  | [] => false
  | v :: rest => pdfVariantIsDirty v || pdfElemsAnyDirty rest

/-- Any value of a dictionary payload dirty
(the child walk of `PdfDictionary::IsDirty`). -/
def pdfEntriesAnyDirty : List (PdfNameT × PdfVariant) → Bool
  | [] => false
  | (_, v) :: rest => pdfVariantIsDirty v || pdfEntriesAnyDirty rest

end

mutual

/-- `PdfVariant::SetDirty` (PdfVariant.cpp:764-793): sets the variant's
own `m_bDirty`; when clearing (`!m_bDirty`) the new state is propagated
into an Array or Dictionary payload (`PdfDictionary::SetDirty`,
PdfVariant.cpp:1173-1187, clears its own flag and every value). -/
def pdfVariantSetDirty : PdfVariant → Bool → PdfVariant
  | .varray elems arrDirty _ i, b =>
    if b then .varray elems arrDirty true i
    else .varray (pdfElemsSetClean elems) false false i
  | .vdict entries dictDirty _ i, b =>
    if b then .vdict entries dictDirty true i
    else .vdict (pdfEntriesSetClean entries) false false i
  | .vnull _ i, b => .vnull b i
  | .vbool x _ i, b => .vbool x b i
  | .vnumber x _ i, b => .vnumber x b i
  | .vreal x _ i, b => .vreal x b i
  | .vstring h x _ i, b => .vstring h x b i
  | .vname x _ i, b => .vname x b i
  | .vreference o g _ i, b => .vreference o g b i
  | .vrawdata x _ i, b => .vrawdata x b i
  | .vunknown _ i, b => .vunknown b i

/-- Clear the dirty state of every array element. -/
def pdfElemsSetClean : List PdfVariant → List PdfVariant
  | [] => []
  | v :: rest => pdfVariantSetDirty v false :: pdfElemsSetClean rest

/-- Clear the dirty state of every dictionary value. -/
def pdfEntriesSetClean : List (PdfNameT × PdfVariant) → List (PdfNameT × PdfVariant)
  | [] => []
  | (k, v) :: rest => (k, pdfVariantSetDirty v false) :: pdfEntriesSetClean rest

end

mutual

/-- The state after `PdfVariant::operator=` into a freshly `Init()`ed
variant (PdfVariant.cpp:313-375): the payload is deep-copied through the
payload classes' copy constructors (each contained `PdfObject` through
the variant copy constructor, which clears its dirtiness; a copied
Dictionary payload's own flag ends false because
`PdfDictionary::PdfDictionary(const&)` resets it, and the Array payload
is modelled alike), then `SetDirty(true)` sets the assigned variant's
own flag only (no propagation when setting).  `m_bImmutable` is not
copied and stays false. -/
def pdfVariantAssignFresh : PdfVariant → PdfVariant
  | .varray elems _ _ _ => .varray (pdfElemsCopy elems) false true false
  | .vdict entries _ _ _ => .vdict (pdfEntriesCopy entries) false true false
  | .vnull _ _ => .vnull true false
  | .vbool x _ _ => .vbool x true false
  | .vnumber x _ _ => .vnumber x true false
  | .vreal x _ _ => .vreal x true false
  | .vstring h x _ _ => .vstring h x true false
  | .vname x _ _ => .vname x true false
  | .vreference o g _ _ => .vreference o g true false
  | .vrawdata x _ _ => .vrawdata x true false
  | .vunknown _ _ => .vunknown true false

/-- Copy-construct every element of an array payload. -/
def pdfElemsCopy : List PdfVariant → List PdfVariant
  | [] => []
  | v :: rest => pdfVariantCopyCtor v :: pdfElemsCopy rest

/-- Copy-construct every entry of a dictionary payload
(`m_mapKeys = rhs.m_mapKeys` copy-constructs each mapped value). -/
def pdfEntriesCopy : List (PdfNameT × PdfVariant) → List (PdfNameT × PdfVariant)
  | [] => []
  | (k, v) :: rest => (k, pdfVariantCopyCtor v) :: pdfEntriesCopy rest

/-- `PdfVariant::PdfVariant(const PdfVariant&)` (PdfVariant.cpp:130-136):
`Init()`, then `operator=(rhs)`, then `SetDirty(false)`. -/
def pdfVariantCopyCtor (v : PdfVariant) : PdfVariant :=
  pdfVariantSetDirty (pdfVariantAssignFresh v) false

end

/-- `PdfDictionary::PdfDictionary(const PdfDictionary&)`
(PdfVariant.cpp:879-884): `operator=(rhs)` copies the entry map
(copy-constructing each value) and sets `m_bDirty = true`; the
constructor body then resets `m_bDirty = false`.  The values' dirtiness
is whatever their copy constructors left. -/
def pdfDictionaryCopyCtor (d : PdfDictionaryS) : PdfDictionaryS :=
  { entries := pdfEntriesCopy d.entries, dirty := false }

/-- `PdfDictionary::IsDirty` on a standalone dictionary
(PdfVariant.cpp:1153-1171): its own flag, else any value's dirtiness. -/
def pdfDictionaryIsDirty (d : PdfDictionaryS) : Bool :=
  d.dirty || pdfEntriesAnyDirty d.entries

/-! ## TrueType subsetter (PdfFontTrueTypeSubset.cpp) -/

/-- The four-byte table tags as 32-bit big-endian numbers
(`TTAG_...` from FreeType, ASCII of the tag names). -/
def TTAG_head : Nat := 0x68656164

/-- Tag `hhea`. -/
def TTAG_hhea : Nat := 0x68686561

/-- Tag `loca`. -/
def TTAG_loca : Nat := 0x6C6F6361

/-- Tag `maxp`. -/
def TTAG_maxp : Nat := 0x6D617870

/-- Tag `glyf`. -/
def TTAG_glyf : Nat := 0x676C7966

/-- Tag `hmtx`. -/
def TTAG_hmtx : Nat := 0x686D7478

/-- Tag `cvt ` (with trailing space). -/
def TTAG_cvt : Nat := 0x63767420

/-- Tag `fpgm`. -/
def TTAG_fpgm : Nat := 0x6670676D

/-- Tag `prep`. -/
def TTAG_prep : Nat := 0x70726570

/-- Tag `post`. -/
def TTAG_post : Nat := 0x706F7374

/-- Tag `cmap`. -/
def TTAG_cmap : Nat := 0x636D6170

/-- A parsed table-directory record (`TrueTypeTable`:
tag, checksum, offset, length). -/
structure TrueTypeTable : Type where
  tag : Nat
  checksum : Nat
  offset : Nat
  length : Nat
  deriving DecidableEq, Repr

/-- The `ReqTable` bit assigned to a tag by the switch of `InitTables`
(PdfFontTrueTypeSubset.cpp:149-190): head=1, hhea=2, loca=4, maxp=8,
glyf=16, hmtx=32, and 0 for every other tag. -/
def reqTableBit (tag : Nat) : Nat :=
  if tag = TTAG_head then 1
  else if tag = TTAG_hhea then 2
  else if tag = TTAG_loca then 4
  else if tag = TTAG_maxp then 8
  else if tag = TTAG_glyf then 16
  else if tag = TTAG_hmtx then 32
  else 0

/-- Whether the switch keeps the table, and with which record: required
tables and `cvt`/`fpgm`/`prep` are kept as read; `post` is skipped when
shorter than 32 bytes and otherwise kept with its length forced to 32;
`cmap` and every other tag are skipped. -/
def initTablesKeep (t : TrueTypeTable) : Option TrueTypeTable :=
  if reqTableBit t.tag ≠ 0 then some t
  else if t.tag = TTAG_cvt ∨ t.tag = TTAG_fpgm ∨ t.tag = TTAG_prep then some t
  else if t.tag = TTAG_post then
    if t.length < 32 then none
    else some { t with length := 32 }
  else none

/-- `PdfFontTrueTypeSubset::InitTables`
(PdfFontTrueTypeSubset.cpp:116-197), on the already-parsed directory
records (the device reads that produce them are byte-for-byte
positional and not at issue).  The loop ORs each table's `ReqTable` bit
into `tableMask` and collects the kept tables; afterwards the guard is
`if ((tableMask & ReqTable::all) == ReqTable::none)` — the scan raises
`UnsupportedFontFormat` only when **none** of the six required-table
bits is set. -/
def initTables (dir : List TrueTypeTable) : Except PdfErrorCode (List TrueTypeTable) :=
  let mask := dir.foldl (fun m t => m ||| reqTableBit t.tag) 0
  let kept := dir.foldr (fun t acc => match initTablesKeep t with
    | some t2 => t2 :: acc
    | none => acc) []
  if mask &&& 63 = 0 then .error .unsupportedFontFormat
  else .ok kept

/-- The set of the six required-table bits present in a directory, for
stating which required tables exist. -/
def requiredMask (dir : List TrueTypeTable) : Nat :=
  dir.foldl (fun m t => m ||| reqTableBit t.tag) 0

/-- `PdfFontTrueTypeSubset::GetTableOffset`
(PdfFontTrueTypeSubset.cpp:93-101): the offset of the first kept table
carrying the tag; raises `InternalLogic` ("table missing") when no such
table exists. -/
def getTableOffset (tables : List TrueTypeTable) (tag : Nat) : Except PdfErrorCode Nat :=
  match tables.find? (fun t => t.tag == tag) with
  | some t => .ok t.offset
  | none => .error .internalLogic

/-- The value of a byte read through `const char*` and integrally
promoted: bytes at or above 128 are negative (`char` is signed on the
reference platforms). -/
def signedByte (b : Nat) : Int := if b < 128 then (b : Int) else (b : Int) - 256

/-- `GetTableCheksum` (PdfFontTrueTypeSubset.cpp:544-554).  Although its
comment cites the table-directory checksum of the OpenType
specification, the loop body is `sum += *buf++;` — it adds the first
`(size + 3) / 4` **bytes** of the buffer, each read as a (signed)
`char`, into a wrapping `uint32_t`, and never assembles 32-bit words. -/
def getTableCheksum (buf : List Nat) (size : Nat) : Nat :=
  let nLongs := (size + 3) / 4
  (((buf.take nLongs).foldl (fun s b => s + signedByte b) 0) % (2 ^ 32 : Int)).toNat

/-- Group a byte list, zero-padded to a multiple of four, into 32-bit
big-endian words. -/
def beWords : List Nat → List Nat
  | [] => []
  | [b0] => [b0 * 16777216]
  | [b0, b1] => [(b0 * 256 + b1) * 65536]
  | [b0, b1, b2] => [((b0 * 256 + b1) * 256 + b2) * 256]
  | b0 :: b1 :: b2 :: b3 :: rest =>
    (((b0 * 256 + b1) * 256 + b2) * 256 + b3) :: beWords rest

/-- The TrueType checksum as the OpenType specification (and spec
section 4.7) defines it: the sum, wrapping modulo 2^32, of the 32-bit
big-endian words of the byte range padded with zero bytes to a 4-byte
boundary. -/
def checksumSpecWords (buf : List Nat) : Nat :=
  (beWords buf).foldl (fun s w => (s + w) % 2 ^ 32) 0

/-! ### Glyph loading, closure, and renumbering -/

/-- The glyph-level view of the input font that `LoadGID`,
`LoadCompound` and the renumbering walk of `LoadGlyphs` consume.
`components gid` lists, in record order, the component glyph ids a
compound glyph references (the sequence `ReadGlyphCompoundData` /
`TryAdvanceCompoundOffset` walks at
PdfFontTrueTypeSubset.cpp:305-316 and 502-534); the empty list encodes
a simple glyph (non-negative contour count — a genuine compound glyph
always has at least one component record).  `glyphLength` is the byte
length the `loca` table assigns to the glyph. -/
structure ModelFont : Type where
  glyphCount : Nat
  components : Nat → List Nat
  glyphLength : Nat → Nat

/-- Insert into an ascending list of distinct naturals, preserving
order: the effect of `m_glyphDatas[gid] = {}` on the key sequence of
the `std::map` (which iterates in ascending key order). -/
def sortedInsertNat (x : Nat) : List Nat → List Nat
  | [] => [x]
  | y :: rest =>
    if x < y then x :: y :: rest
    else if x = y then y :: rest
    else y :: sortedInsertNat x rest

mutual

/-- `PdfFontTrueTypeSubset::LoadGID`
(PdfFontTrueTypeSubset.cpp:254-303), fuelled: raises `InternalLogic`
when `gid >= m_glyphCount`; returns unchanged when the glyph is already
in `m_glyphDatas`; otherwise records it (keeping the map's ascending
key order) and, when the glyph is compound, walks its component records
through `LoadCompound`, loading each component glyph. -/
def loadGIDFuel (font : ModelFont) : Nat → Nat → List Nat →
    Option (Except PdfErrorCode (List Nat))
  | 0, _, _ => none
  | fuel + 1, gid, loaded =>
    if font.glyphCount ≤ gid then some (.error .internalLogic)
    else if gid ∈ loaded then some (.ok loaded)
    else loadGIDListFuel font fuel (font.components gid) (sortedInsertNat gid loaded)
termination_by fuel _ _ => (fuel, 0)

/-- Load a list of glyph ids in order, threading `m_glyphDatas`
(the component walk of `LoadCompound`, and the caller loop of
`LoadGlyphs`). -/
def loadGIDListFuel (font : ModelFont) : Nat → List Nat → List Nat →
    Option (Except PdfErrorCode (List Nat))
  | _, [], loaded => some (.ok loaded)
  | fuel, gid :: rest, loaded =>
    match loadGIDFuel font fuel gid loaded with
    | none => none
    | some (.error e) => some (.error e)
    | some (.ok loaded2) => loadGIDListFuel font fuel rest loaded2
termination_by fuel gids _ => (fuel, gids.length + 1)

end

/-- The loading phase of `PdfFontTrueTypeSubset::LoadGlyphs`
(PdfFontTrueTypeSubset.cpp:210-213): glyph 0 is always loaded first,
then every glyph of the caller's `gidList` in the order given. -/
def subsetLoadPhase (font : ModelFont) (gidList : List Nat) (fuel : Nat) :
    Option (Except PdfErrorCode (List Nat)) :=
  match loadGIDFuel font fuel 0 [] with
  | none => none
  | some (.error e) => some (.error e)
  | some (.ok loaded) => loadGIDListFuel font fuel gidList loaded

/-- Lookup in the `glyphIndexMap` association (key, assigned new GID). -/
def mapLookup (m : List (Nat × Nat)) (k : Nat) : Option Nat :=
  match m.find? (fun p => p.1 == k) with
  | some p => some p.2
  | none => none

/-- `glyphIndexMap.insert({ k, glyphIndexMap.size() })`: a `std::map`
insert that does nothing when the key exists; returns the map, the
mapped value (`inserted.first->second`) and whether insertion occurred
(`inserted.second`). -/
def mapInsertIfAbsent (m : List (Nat × Nat)) (k : Nat) : List (Nat × Nat) × Nat × Bool :=
  match mapLookup m k with
  | some i => (m, i, false)
  | none => (m ++ [(k, m.length)], m.length, true)

/-- The first renumbering loop of `LoadGlyphs`
(PdfFontTrueTypeSubset.cpp:216-223): `glyphIndexMap` starts as
`{0 -> 0}` with `m_orderedGIDs = [0]`; every caller GID is *insert*ed
(a no-op on duplicates or gid 0) while the `push_back` onto
`m_orderedGIDs` is unconditional. -/
def renumberInitGo : List (Nat × Nat) × List Nat → List Nat → List (Nat × Nat) × List Nat
  | st, [] => st
  | (m, o), g :: rest => renumberInitGo ((mapInsertIfAbsent m g).1, o ++ [g]) rest

/-- The initial renumbering state and loop of `LoadGlyphs`
(PdfFontTrueTypeSubset.cpp:216-223). -/
def renumberInit (gidList : List Nat) : List (Nat × Nat) × List Nat :=
  renumberInitGo ([(0, 0)], [0]) gidList

/-- The compound walk of `LoadGlyphs`
(PdfFontTrueTypeSubset.cpp:225-251): iterate `m_glyphDatas` in
ascending GID order; for each compound glyph walk its component
records in order, inserting each component GID into the index map
(appending it to `m_orderedGIDs` exactly when the insertion occurred). -/
def renumberComponentsGo : List (Nat × Nat) × List Nat → List Nat → List (Nat × Nat) × List Nat
  | st, [] => st
  | (m, o), c :: rest =>
    let r := mapInsertIfAbsent m c
    renumberComponentsGo (r.1, if r.2.2 then o ++ [c] else o) rest

/-- The outer walk over `m_glyphDatas` (ascending GID order). -/
def renumberCompoundGo (font : ModelFont) :
    List (Nat × Nat) × List Nat → List Nat → List (Nat × Nat) × List Nat
  | st, [] => st
  | st, g :: rest => renumberCompoundGo font (renumberComponentsGo st (font.components g)) rest

/-- The full compound walk of `LoadGlyphs` over the loaded glyph set. -/
def renumberCompound (font : ModelFont) (loaded : List Nat)
    (st : List (Nat × Nat) × List Nat) : List (Nat × Nat) × List Nat :=
  renumberCompoundGo font st loaded

/-- The complete `LoadGlyphs` pipeline: the load phase, then the two
renumbering walks; returns the loaded GID set (ascending), the final
`glyphIndexMap` association and `m_orderedGIDs`. -/
def subsetGlyphs (font : ModelFont) (gidList : List Nat) (fuel : Nat) :
    Option (Except PdfErrorCode (List Nat × List (Nat × Nat) × List Nat)) :=
  match subsetLoadPhase font gidList fuel with
  | none => none
  | some (.error e) => some (.error e)
  | some (.ok loaded) =>
    let st := renumberCompound font loaded (renumberInit gidList)
    some (.ok (loaded, st.1, st.2))

/-- The rewritten component-GID fields of a compound glyph in the output
`glyf` table (`WriteGlyphTable`, PdfFontTrueTypeSubset.cpp:319-345):
each component field is overwritten with the new GID the index map
assigned during the walk. -/
def rewrittenComponents (font : ModelFont) (m : List (Nat × Nat)) (gid : Nat) : List Nat :=
  (font.components gid).map (fun c => (mapLookup m c).getD 0)

/-- `maxp.numGlyphs` as written by `WriteTables`
(PdfFontTrueTypeSubset.cpp:445): `m_glyphDatas.size()`, the number of
loaded (closure) glyphs. -/
def maxpNumGlyphs (loaded : List Nat) : Nat := loaded.length

/-- The per-glyph records of the output `hmtx` table
(`WriteHmtxTable`, PdfFontTrueTypeSubset.cpp:349-360): one
`longHorMetric` copy per entry of `m_orderedGIDs`, identified by the
source GID the bytes were copied from. -/
def hmtxRecords (ordered : List Nat) : List Nat := ordered

/-- The per-glyph records of the output `glyf` table
(`WriteGlyphTable`, PdfFontTrueTypeSubset.cpp:319-345): one record per
entry of `m_orderedGIDs` whose glyph length is non-zero, identified by
the source GID. -/
def glyfRecords (font : ModelFont) (ordered : List Nat) : List Nat :=
  ordered.filter (fun g => font.glyphLength g ≠ 0)

/-- The keys of a `glyphIndexMap` association. -/
def mapKeys (m : List (Nat × Nat)) : List Nat := m.map Prod.fst

/-- The example font of spec scenario S5: glyph 10 is compound over
glyphs 5 and 7, glyph 7 is compound over glyph 3, everything else is
simple; all glyphs have non-zero length. -/
def exampleFont : ModelFont where
  glyphCount := 11
  components := fun g => if g = 10 then [5, 7] else if g = 7 then [3] else []
  glyphLength := fun _ => 12

/-- A one-entry dictionary `{ /A : 7 }`, used as the content of *two
distinct* dictionary objects holding identical `(key, value)` sets. -/
def dictA7 : PdfDictionaryS :=
  { entries := [([0x41], PdfVariant.vnumber 7 false false)], dirty := false }

/-- A one-entry dictionary `{ /A : 8 }`, differing from `dictA7` in the
value only. -/
def dictA8 : PdfDictionaryS :=
  { entries := [([0x41], PdfVariant.vnumber 8 false false)], dirty := false }

/-- The empty dictionary. -/
def dictEmptyS : PdfDictionaryS := { entries := [], dirty := false }

/-! # Theorems

Helper lemmas come first, then one theorem per claim (with its
counterexample or witness where the status calls for one). -/

/-- Clearing the dirty state through `SetDirty(false)` leaves a variant
whose `IsDirty` is false, recursively through containers. -/
theorem pdfVariant_isDirty_setClean :
    ∀ v : PdfVariant, pdfVariantIsDirty (pdfVariantSetDirty v false) = false := by
  have h : ∀ (v : PdfVariant) (b : Bool),
      b = false → pdfVariantIsDirty (pdfVariantSetDirty v b) = false := by
    refine pdfVariantSetDirty.induct
      (fun v b => b = false → pdfVariantIsDirty (pdfVariantSetDirty v b) = false)
      (fun es => pdfEntriesAnyDirty (pdfEntriesSetClean es) = false)
      (fun l => pdfElemsAnyDirty (pdfElemsSetClean l) = false)
      ?_ ?_ ?_ ?_ ?_ ?_ ?_ ?_ ?_ ?_ ?_ ?_ ?_ ?_ ?_ ?_ ?_
    case _ => intro elems aD d i hcontra; simp at hcontra
    case _ =>
      intro elems aD d i b hb ih _
      have hb2 : b = false := by cases b <;> simp_all
      subst hb2
      simp [pdfVariantSetDirty, pdfVariantIsDirty, ih]
    case _ => intro entries dD d i hcontra; simp at hcontra
    case _ =>
      intro entries dD d i b hb ih _
      have hb2 : b = false := by cases b <;> simp_all
      subst hb2
      simp [pdfVariantSetDirty, pdfVariantIsDirty, ih]
    case _ => intro d i b hb; subst hb; simp [pdfVariantSetDirty, pdfVariantIsDirty]
    case _ => intro x d i b hb; subst hb; simp [pdfVariantSetDirty, pdfVariantIsDirty]
    case _ => intro x d i b hb; subst hb; simp [pdfVariantSetDirty, pdfVariantIsDirty]
    case _ => intro x d i b hb; subst hb; simp [pdfVariantSetDirty, pdfVariantIsDirty]
    case _ => intro hx x d i b hb; subst hb; simp [pdfVariantSetDirty, pdfVariantIsDirty]
    case _ => intro x d i b hb; subst hb; simp [pdfVariantSetDirty, pdfVariantIsDirty]
    case _ => intro o g d i b hb; subst hb; simp [pdfVariantSetDirty, pdfVariantIsDirty]
    case _ => intro x d i b hb; subst hb; simp [pdfVariantSetDirty, pdfVariantIsDirty]
    case _ => intro d i b hb; subst hb; simp [pdfVariantSetDirty, pdfVariantIsDirty]
    case _ => simp [pdfElemsSetClean, pdfElemsAnyDirty]
    case _ =>
      intro v rest ihv ihrest
      simp [pdfElemsSetClean, pdfElemsAnyDirty, ihv rfl, ihrest]
    case _ => simp [pdfEntriesSetClean, pdfEntriesAnyDirty]
    case _ =>
      intro k0 v0 rest ihv ihrest
      simp [pdfEntriesSetClean, pdfEntriesAnyDirty, ihv rfl, ihrest]
  intro v
  exact h v false rfl

/-- Copy-constructed entry lists are clean. -/
theorem pdfEntriesCopy_clean :
    ∀ es : List (PdfNameT × PdfVariant), pdfEntriesAnyDirty (pdfEntriesCopy es) = false := by
  intro es
  induction es with
  | nil => simp [pdfEntriesCopy, pdfEntriesAnyDirty]
  | cons e rest ih =>
    obtain ⟨k, v⟩ := e
    have hv : pdfVariantIsDirty (pdfVariantCopyCtor v) = false := by
      rw [pdfVariantCopyCtor]
      exact pdfVariant_isDirty_setClean (pdfVariantAssignFresh v)
    simp [pdfEntriesCopy, pdfEntriesAnyDirty, hv, ih]

/-- C9 (confirmed): a copy-constructed clone of any variant or
dictionary reports `IsDirty() == false` immediately after construction,
whatever the dirtiness of the source: `PdfVariant`'s copy constructor
runs `operator=` (which marks the target dirty) and then clears the
flag recursively with `SetDirty(false)`; `PdfDictionary`'s copy
constructor resets its own flag after `operator=` while its values were
copy-constructed clean. -/
theorem pdfCopyCtor_isClean :
    (∀ v : PdfVariant, pdfVariantIsDirty (pdfVariantCopyCtor v) = false) ∧
    (∀ d : PdfDictionaryS, pdfDictionaryIsDirty (pdfDictionaryCopyCtor d) = false) := by
  constructor
  · intro v
    rw [pdfVariantCopyCtor]
    exact pdfVariant_isDirty_setClean (pdfVariantAssignFresh v)
  · intro d
    simp [pdfDictionaryCopyCtor, pdfDictionaryIsDirty, pdfEntriesCopy_clean]

/-- The comparison loop of `PdfDictionary::operator==` never advances
its iterators: on two equal-content one-entry maps every iteration
re-compares the first entries successfully and loops again, so no
amount of fuel produces a result. -/
theorem pdfDictEqLoop_A7_stuck :
    ∀ fuel, pdfDictEqLoopFuel fuel [([0x41], PdfVariant.vnumber 7 false false)]
      [([0x41], PdfVariant.vnumber 7 false false)] = none := by
  intro fuel
  induction fuel with
  | zero => simp [pdfDictEqLoopFuel]
  | succ f ih =>
    cases f with
    | zero => simp [pdfDictEqLoopFuel, pdfVariantEqFuel]
    | succ g =>
      rw [pdfDictEqLoopFuel]
      simp only [pdfVariantEqFuel, catchInvalidDataType]
      simpa using ih

/-- C4 (code_bug): comparing two distinct dictionaries that hold the
identical entry set `{ /A : 7 }` never returns: the sizes match, the
first keys and values compare equal, and the `const` iterators are
never advanced, so `operator==` re-executes the same iteration forever
(`none` for every fuel bound).  The claimed terminating lockstep
traversal is what the surrounding comments describe, not what the loop
does.  Mismatching inputs do terminate: a differing first value and a
differing size each return false at once. -/
theorem pdfDictionaryEq_identical_diverges :
    (∀ fuel, pdfDictionaryEqFuel false dictA7 dictA7 fuel = none) ∧
    pdfDictionaryEqFuel false dictA7 dictA8 2 = some (.ok false) ∧
    pdfDictionaryEqFuel false dictA7 dictEmptyS 2 = some (.ok false) := by
  refine ⟨?_, ?_, ?_⟩
  · intro fuel
    show pdfDictEqCoreFuel fuel dictA7.entries dictA7.entries = none
    rw [pdfDictEqCoreFuel]
    simpa [dictA7] using pdfDictEqLoop_A7_stuck fuel
  · show pdfDictEqCoreFuel 2 dictA7.entries dictA8.entries = some (.ok false)
    rw [pdfDictEqCoreFuel]
    simp [dictA7, dictA8, pdfDictEqLoopFuel, pdfVariantEqFuel, catchInvalidDataType]
  · show pdfDictEqCoreFuel 2 dictA7.entries dictEmptyS.entries = some (.ok false)
    rw [pdfDictEqCoreFuel]
    simp [dictA7, dictEmptyS]

/-- C5 (code_bug): calling `SetReference` on a variant whose kind *is*
`Reference` — the one case the documented contract says must succeed by
replacing the stored reference and setting dirty — raises
`InvalidDataType`, because the source's guard is inverted. -/
theorem pdfSetReference_on_reference_raises :
    pdfSetReference (PdfVariant.vreference 3 0 false false) 4 0 =
      some (.error .invalidDataType) := rfl

/-- C6 counterexample: `GetNumber` on the Real −3/2 returns −2 (the
floor), not the −1 that truncation toward zero (ceiling of a negative)
would give, refuting the claim at this input. -/
theorem pdfGetNumber_negThreeHalves :
    pdfGetNumber (PdfVariant.vreal (-(3 : ℚ)/2) false false) = .ok (-2) ∧
    ((-2 : Int) = -1 → False) := by
  constructor
  · show Except.ok ⌊(-(3 : ℚ)/2)⌋ = Except.ok (-2)
    norm_num
  · intro h; exact absurd h (by norm_num)

/-- C6 (corrected): `GetNumber` on a Real returns the floor (toward
negative infinity) of the stored value for every sign — so −3/2 maps to
−2, one less than truncation toward zero — and on a Number returns the
stored integer; no `ValueOutOfRange` check appears on this path. -/
theorem pdfGetNumber_floor :
    (∀ (q : ℚ) (d i : Bool), pdfGetNumber (PdfVariant.vreal q d i) = .ok ⌊q⌋) ∧
    (∀ (n : Int) (d i : Bool), pdfGetNumber (PdfVariant.vnumber n d i) = .ok n) ∧
    pdfGetNumber (PdfVariant.vreal (-(3 : ℚ)/2) true true) = .ok (-2) := by
  refine ⟨fun q d i => rfl, fun n d i => rfl, ?_⟩
  show Except.ok ⌊(-(3 : ℚ)/2)⌋ = Except.ok (-2)
  norm_num

/-- The fixed-point rendering of 3/2 is the eight characters 1.500000. -/
theorem fixedSix_threeHalves :
    fixedSix (3/2) = ['1', '.', '5', '0', '0', '0', '0', '0'] := by
  have h1 : ¬ ((3 : ℚ)/2 < 0) := by norm_num
  have h2 : (⌊(3/2 : ℚ) * 1000000⌋ : Int) = 1500000 := by norm_num
  rw [fixedSix, if_neg h1, fixedSixAbs, h2]
  decide

/-- The fixed-point rendering of 1 is 1.000000. -/
theorem fixedSix_one :
    fixedSix 1 = ['1', '.', '0', '0', '0', '0', '0', '0'] := by
  have h1 : ¬ ((1 : ℚ) < 0) := by norm_num
  have h2 : (⌊(1 : ℚ) * 1000000⌋ : Int) = 1000000 := by norm_num
  rw [fixedSix, if_neg h1, fixedSixAbs, h2]
  decide

/-- The fixed-point rendering of 0 is 0.000000. -/
theorem fixedSix_zero :
    fixedSix 0 = ['0', '.', '0', '0', '0', '0', '0', '0'] := by
  have h1 : ¬ ((0 : ℚ) < 0) := by norm_num
  have h2 : (⌊(0 : ℚ) * 1000000⌋ : Int) = 0 := by norm_num
  rw [fixedSix, if_neg h1, fixedSixAbs, h2]
  decide

/-- C7 counterexample: in compact mode the writer emits a space before
every real (`pDevice->Write(" ", 1)` is unconditional), so
`Real(1.5)` emits the four bytes `space 1 . 5`, not exactly `1.5` as
the claim states. -/
theorem pdfWriteRealCompact_not_bare :
    pdfWriteRealCompact (3/2) = [' ', '1', '.', '5'] ∧
    ([' ', '1', '.', '5'] = ['1', '.', '5'] → False) := by
  constructor
  · rw [pdfWriteRealCompact, fixedSix_threeHalves]; decide
  · intro h; exact absurd h (by decide)

/-- C7 (corrected): the compact emission is one unconditional leading
space followed by the fixed-point rendering with trailing zeros
dropped, a trailing bare point omitted, and the single character 0 when
the strip would consume everything: `Real(1.5)` emits `space 1.5`,
`Real(1.0)` emits `space 1`, and `Real(0.0)` emits `space 0`. -/
theorem pdfWriteRealCompact_spaced :
    pdfWriteRealCompact (3/2) = [' ', '1', '.', '5'] ∧
    pdfWriteRealCompact 1 = [' ', '1'] ∧
    pdfWriteRealCompact 0 = [' ', '0'] := by
  refine ⟨?_, ?_, ?_⟩
  · rw [pdfWriteRealCompact, fixedSix_threeHalves]; decide
  · rw [pdfWriteRealCompact, fixedSix_one]; decide
  · rw [pdfWriteRealCompact, fixedSix_zero]; decide

/-- Inserting the empty name always lands at the head of the sorted
entry list: the empty byte sequence is the least name, so the walk
either replaces an empty-name head or inserts in front of everything. -/
theorem sortedInsertEntry_empty_head (v : PdfVariant) :
    ∀ es : List (PdfNameT × PdfVariant),
      ∃ tail, sortedInsertEntry [] v es = ([], v) :: tail := by
  intro es
  cases es with
  | nil => exact ⟨[], rfl⟩
  | cons e rest =>
    obtain ⟨k0, v0⟩ := e
    cases k0 with
    | nil => exact ⟨rest, by simp [sortedInsertEntry, nameLtB]⟩
    | cons b bs => exact ⟨(b :: bs, v0) :: rest, by simp [sortedInsertEntry, nameLtB]⟩

/-- C8 counterexample: after `AddKey` with the empty name and the value
7, `getKey` on the empty name returns null — the zero-length guard at
the top of `getKey` fires before the lookup — even though the entry is
stored (`HasKey` finds it).  The claim that `get` returns the stored
value is refuted at this input. -/
theorem dictGetKey_emptyName_null :
    dictGetKey (dictAddKey { entries := [], dirty := false } []
        (PdfVariant.vnumber 7 false false)) [] = none ∧
    dictHasKey (dictAddKey { entries := [], dirty := false } []
        (PdfVariant.vnumber 7 false false)) [] = true ∧
    dictGetKey (dictAddKey { entries := [], dirty := false } []
        (PdfVariant.vnumber 7 false false)) []
      ≠ some (PdfVariant.vnumber 7 false false) := by
  refine ⟨rfl, rfl, ?_⟩
  intro h
  simp [dictGetKey] at h

/-- C8 (corrected): an empty-name entry is stored by `add_or_replace`
and participates in `HasKey`, in removal and in the serialization walk
like any other key, but `get` (`getKey`) returns null for the empty
name because of its explicit zero-length guard. -/
theorem dictEmptyName_stored_but_not_gettable :
    ∀ (d : PdfDictionaryS) (v : PdfVariant),
      dictGetKey (dictAddKey d [] v) [] = none ∧
      dictHasKey (dictAddKey d [] v) [] = true ∧
      (dictRemoveKey (dictAddKey d [] v) []).2 = true ∧
      [] ∈ dictWriteKeySequence (dictAddKey d [] v) none := by
  intro d v
  obtain ⟨tail, htail⟩ := sortedInsertEntry_empty_head v d.entries
  have hentries : (dictAddKey d [] v).entries = ([], v) :: tail := by
    simp [dictAddKey, htail]
  refine ⟨rfl, ?_, ?_, ?_⟩
  · simp [dictHasKey, hentries, entriesLookup]
  · simp [dictRemoveKey, hentries, entriesLookup]
  · have hne : (([] : PdfNameT) = keyTypeName) ↔ False := by simp [keyTypeName]
    have hne2 : (keyTypeName = ([] : PdfNameT)) ↔ False := by simp [keyTypeName]
    simp only [dictWriteKeySequence, hentries]
    simp [dictWriteWalk, hne, hne2, keyStopHits]

/-- C1 (code_bug): on the byte range `00 00 00 01` of length 4 the
specified checksum — the sum of 32-bit big-endian words — is 1, but
`GetTableCheksum` returns 0: its loop `sum += *buf++` adds the first
`(size+3)/4 = 1` *bytes* instead of assembling words, so the written
directory checksums and the derived `checkSumAdjustment` do not satisfy
the claimed identity. -/
theorem getTableCheksum_sums_bytes_not_words :
    getTableCheksum [0, 0, 0, 1] 4 = 0 ∧
    checksumSpecWords [0, 0, 0, 1] = 1 ∧
    (getTableCheksum [0, 0, 0, 1] 4 = checksumSpecWords [0, 0, 0, 1] → False) := by
  refine ⟨rfl, by decide, ?_⟩
  intro h
  rw [show getTableCheksum [0, 0, 0, 1] 4 = 0 from rfl] at h
  rw [show checksumSpecWords [0, 0, 0, 1] = 1 by decide] at h
  exact absurd h (by decide)

/-- C2 (code_bug): a font directory containing `head` but none of
`hhea, loca, maxp, glyf, hmtx` passes the table scan without error —
`InitTables` raises `UnsupportedFontFormat` only when the mask has
*none* of the six required bits (`(tableMask & all) == none`), as the
third conjunct shows for a `cmap`-only font.  The claim (and the scan's
own comment and error message) requires a failure whenever any one of
the six is absent; what the head-only font actually hits later is
`GetTableOffset`'s `InternalLogic` when `BuildFont` asks for `glyf`. -/
theorem initTables_missing_required_passes :
    initTables [⟨TTAG_head, 0, 100, 54⟩] = .ok [⟨TTAG_head, 0, 100, 54⟩] ∧
    requiredMask [⟨TTAG_head, 0, 100, 54⟩] = 1 ∧
    initTables [⟨TTAG_cmap, 0, 12, 256⟩] = .error .unsupportedFontFormat ∧
    getTableOffset [⟨TTAG_head, 0, 100, 54⟩] TTAG_glyf = .error .internalLogic := by
  exact ⟨rfl, rfl, rfl, rfl⟩

/-- The first renumbering loop appends exactly the caller's GID list to
the ordered output, whatever the map does. -/
theorem renumberInitGo_snd :
    ∀ (gids : List Nat) (m : List (Nat × Nat)) (o : List Nat),
      (renumberInitGo (m, o) gids).2 = o ++ gids := by
  intro gids
  induction gids with
  | nil => intro m o; simp [renumberInitGo]
  | cons g rest ih =>
    intro m o
    rw [renumberInitGo, ih]
    simp

/-- The component walk only ever appends to the ordered output. -/
theorem renumberComponentsGo_snd_extends :
    ∀ (comps : List Nat) (m : List (Nat × Nat)) (o : List Nat),
      ∃ rest, (renumberComponentsGo (m, o) comps).2 = o ++ rest := by
  intro comps
  induction comps with
  | nil => intro m o; exact ⟨[], by simp [renumberComponentsGo]⟩
  | cons c crest ih =>
    intro m o
    rw [renumberComponentsGo]
    by_cases hnew : (mapInsertIfAbsent m c).2.2 = true
    · obtain ⟨rest, hrest⟩ := ih (mapInsertIfAbsent m c).1 (o ++ [c])
      exact ⟨[c] ++ rest, by simp [hnew, hrest]⟩
    · obtain ⟨rest, hrest⟩ := ih (mapInsertIfAbsent m c).1 o
      refine ⟨rest, ?_⟩
      simp only [Bool.not_eq_true] at hnew
      simp [hnew, hrest]

/-- The outer compound walk only ever appends to the ordered output. -/
theorem renumberCompoundGo_snd_extends (font : ModelFont) :
    ∀ (loaded : List Nat) (st : List (Nat × Nat) × List Nat),
      ∃ rest, (renumberCompoundGo font st loaded).2 = st.2 ++ rest := by
  intro loaded
  induction loaded with
  | nil => intro st; exact ⟨[], by simp [renumberCompoundGo]⟩
  | cons g grest ih =>
    intro st
    rw [renumberCompoundGo]
    obtain ⟨r1, hr1⟩ := renumberComponentsGo_snd_extends (font.components g) st.1 st.2
    obtain ⟨r2, hr2⟩ := ih (renumberComponentsGo st (font.components g))
    exact ⟨r1 ++ r2, by rw [hr2, hr1]; simp⟩

/-- C3 counterexample: on the scenario-S5 font (glyph 10 compound over
5 and 7, glyph 7 compound over 3), subsetting with `gidList = [10]`
produces `ordered_gids = [0, 10, 3, 5, 7]` and component rewrites
`[3, 4]` for glyph 10 and `[2]` for glyph 7 — not the claimed
`[0, 10, 5, 7, 3]` with rewrites 5→2, 7→3, 3→4 — because the walk
iterates the sorted `m_glyphDatas` map, not the discovery order. -/
theorem subsetGlyphs_not_discovery_order :
    subsetGlyphs exampleFont [10] 20 =
      some (.ok ([0, 3, 5, 7, 10], [(0, 0), (10, 1), (3, 2), (5, 3), (7, 4)],
        [0, 10, 3, 5, 7])) ∧
    ([0, 10, 3, 5, 7] = [0, 10, 5, 7, 3] → False) ∧
    rewrittenComponents exampleFont [(0, 0), (10, 1), (3, 2), (5, 3), (7, 4)] 10 = [3, 4] ∧
    ([3, 4] = [2, 3] → False) := by
  refine ⟨?_, by decide, by decide, by decide⟩
  simp [subsetGlyphs, subsetLoadPhase, loadGIDFuel, loadGIDListFuel, exampleFont,
    sortedInsertNat, renumberCompound, renumberInit, renumberInitGo, renumberCompoundGo,
    renumberComponentsGo, mapInsertIfAbsent, mapLookup]

/-- C3 (corrected): `ordered_gids` begins with glyph 0 followed by the
caller's GIDs in the order given, and the compound descendants that
follow are appended in the order encountered while walking the loaded
glyph records in ascending original-GID order (the iteration order of
the `std::map m_glyphDatas`), not in closure-discovery order.  On the
scenario-S5 font with `gidList = [10]` this yields
`ordered_gids = [0, 10, 3, 5, 7]`, new GIDs 0→0, 10→1, 3→2, 5→3, 7→4,
and component fields rewritten to `[3, 4]` in glyph 10 and `[2]` in
glyph 7. -/
theorem subsetGlyphs_ascending_walk_order :
    (∀ (font : ModelFont) (gids loaded : List Nat),
      ∃ rest, (renumberCompound font loaded (renumberInit gids)).2 = 0 :: (gids ++ rest)) ∧
    subsetGlyphs exampleFont [10] 20 =
      some (.ok ([0, 3, 5, 7, 10], [(0, 0), (10, 1), (3, 2), (5, 3), (7, 4)],
        [0, 10, 3, 5, 7])) ∧
    rewrittenComponents exampleFont [(0, 0), (10, 1), (3, 2), (5, 3), (7, 4)] 10 = [3, 4] ∧
    rewrittenComponents exampleFont [(0, 0), (10, 1), (3, 2), (5, 3), (7, 4)] 7 = [2] ∧
    mapLookup [(0, 0), (10, 1), (3, 2), (5, 3), (7, 4)] 10 = some 1 := by
  refine ⟨?_, ?_, by decide, by decide, by decide⟩
  · intro font gids loaded
    obtain ⟨rest, hrest⟩ :=
      renumberCompoundGo_snd_extends font loaded (renumberInit gids)
    refine ⟨rest, ?_⟩
    rw [renumberCompound, hrest, renumberInit, renumberInitGo_snd]
    simp
  · simp [subsetGlyphs, subsetLoadPhase, loadGIDFuel, loadGIDListFuel, exampleFont,
      sortedInsertNat, renumberCompound, renumberInit, renumberInitGo, renumberCompoundGo,
      renumberComponentsGo, mapInsertIfAbsent, mapLookup]

/-- A `glyphIndexMap` lookup fails exactly when the key is absent. -/
theorem mapLookup_eq_none_iff (m : List (Nat × Nat)) (k : Nat) :
    mapLookup m k = none ↔ k ∉ mapKeys m := by
  constructor
  · intro h hk
    rw [mapKeys, List.mem_map] at hk
    obtain ⟨p, hpm, hpk⟩ := hk
    rw [mapLookup] at h
    cases hf : List.find? (fun p => p.1 == k) m with
    | some q => rw [hf] at h; cases h
    | none =>
      have hnp := List.find?_eq_none.mp hf p hpm
      simp [hpk] at hnp
  · intro hk
    rw [mapLookup]
    cases hf : List.find? (fun p => p.1 == k) m with
    | some q =>
      exfalso
      have hq1 := List.find?_some hf
      have hqm : q ∈ m := List.mem_of_find?_eq_some hf
      simp only [beq_iff_eq] at hq1
      exact hk (by rw [mapKeys, List.mem_map]; exact ⟨q, hqm, hq1⟩)
    | none => rfl

/-- Inserting a key that is already present leaves the map unchanged
and reports no insertion. -/
theorem mapInsertIfAbsent_mem (m : List (Nat × Nat)) (k : Nat) (hmem : k ∈ mapKeys m) :
    (mapInsertIfAbsent m k).1 = m ∧ (mapInsertIfAbsent m k).2.2 = false := by
  rw [mapInsertIfAbsent]
  cases hl : mapLookup m k with
  | some i => exact ⟨rfl, rfl⟩
  | none => exact absurd hmem ((mapLookup_eq_none_iff m k).mp hl)

/-- Inserting an absent key appends exactly one entry and reports the
insertion. -/
theorem mapInsertIfAbsent_new (m : List (Nat × Nat)) (k : Nat) (hmem : k ∉ mapKeys m) :
    (mapInsertIfAbsent m k).1 = m ++ [(k, m.length)] ∧ (mapInsertIfAbsent m k).2.2 = true := by
  rw [mapInsertIfAbsent]
  cases hl : mapLookup m k with
  | some i =>
    exfalso
    have hne : mapLookup m k ≠ none := by rw [hl]; simp
    exact hne ((mapLookup_eq_none_iff m k).mpr hmem)
  | none => exact ⟨rfl, rfl⟩

/-- Through the first renumbering loop the key set of the index map
stays duplicate-free and ends as the union of the initial keys and the
caller's GIDs. -/
theorem renumberInitGo_keys :
    ∀ (gids : List Nat) (m : List (Nat × Nat)) (o : List Nat),
      (mapKeys m).Nodup →
      (mapKeys (renumberInitGo (m, o) gids).1).Nodup ∧
      (mapKeys (renumberInitGo (m, o) gids).1).toFinset
        = (mapKeys m).toFinset ∪ gids.toFinset := by
  intro gids
  induction gids with
  | nil =>
    intro m o h
    refine ⟨by simpa [renumberInitGo] using h, ?_⟩
    simp [renumberInitGo]
  | cons g rest ih =>
    intro m o h
    rw [renumberInitGo]
    by_cases hg : g ∈ mapKeys m
    · rw [(mapInsertIfAbsent_mem m g hg).1]
      obtain ⟨h1, h2⟩ := ih m (o ++ [g]) h
      refine ⟨h1, ?_⟩
      rw [h2, List.toFinset_cons, Finset.union_insert,
        Finset.insert_eq_self.mpr (Finset.mem_union_left _ (List.mem_toFinset.mpr hg))]
    · have hkeys : mapKeys (mapInsertIfAbsent m g).1 = mapKeys m ++ [g] := by
        rw [(mapInsertIfAbsent_new m g hg).1]; simp [mapKeys]
      have hnodup : (mapKeys (mapInsertIfAbsent m g).1).Nodup := by
        rw [hkeys]
        refine List.Nodup.append h (List.nodup_singleton g) ?_
        intro a ha hag
        simp only [List.mem_singleton] at hag
        subst hag
        exact hg ha
      obtain ⟨h1, h2⟩ := ih (mapInsertIfAbsent m g).1 (o ++ [g]) hnodup
      refine ⟨h1, ?_⟩
      rw [h2, hkeys]
      ext x
      simp only [List.toFinset_append, List.toFinset_cons, Finset.mem_union,
        Finset.mem_insert, List.toFinset_nil, List.mem_toFinset, List.mem_singleton,
        Finset.mem_singleton, Finset.union_comm, Finset.mem_union]
      tauto

/-- One glyph's component walk grows the ordered list and the index map
in lockstep: their length difference is invariant. -/
theorem renumberComponentsGo_diff :
    ∀ (comps : List Nat) (m : List (Nat × Nat)) (o : List Nat),
      (renumberComponentsGo (m, o) comps).2.length + m.length
        = o.length + (renumberComponentsGo (m, o) comps).1.length := by
  intro comps
  induction comps with
  | nil => intro m o; simp [renumberComponentsGo]
  | cons c rest ih =>
    intro m o
    rw [renumberComponentsGo]
    by_cases hc : c ∈ mapKeys m
    · obtain ⟨h1, h2⟩ := mapInsertIfAbsent_mem m c hc
      simp only [h1, h2, Bool.false_eq_true, if_false]
      exact ih m o
    · obtain ⟨h1, h2⟩ := mapInsertIfAbsent_new m c hc
      simp only [h1, h2, if_true]
      have := ih (m ++ [(c, m.length)]) (o ++ [c])
      simp only [List.length_append, List.length_singleton] at this ⊢
      omega

/-- The full compound walk preserves the difference between ordered-list
length and index-map length. -/
theorem renumberCompoundGo_diff (font : ModelFont) :
    ∀ (loaded : List Nat) (m : List (Nat × Nat)) (o : List Nat),
      (renumberCompoundGo font (m, o) loaded).2.length + m.length
        = o.length + (renumberCompoundGo font (m, o) loaded).1.length := by
  intro loaded
  induction loaded with
  | nil => intro m o; simp [renumberCompoundGo]
  | cons g rest ih =>
    intro m o
    rw [renumberCompoundGo]
    have h1 := renumberComponentsGo_diff (font.components g) m o
    have h2 := ih (renumberComponentsGo (m, o) (font.components g)).1
      (renumberComponentsGo (m, o) (font.components g)).2
    simp only [Prod.mk.eta] at h2
    omega

/-- The quantitative renumbering law: the ordered list exceeds the
index map by exactly the number of redundant entries of the caller's
GID list (occurrences of glyph 0 and of already-seen GIDs), uniformly
in the font and the loaded glyph set. -/
theorem renumber_count_law (font : ModelFont) (gids loaded : List Nat) :
    (renumberCompound font loaded (renumberInit gids)).2.length
        + ({0} ∪ gids.toFinset : Finset ℕ).card
      = (renumberCompound font loaded (renumberInit gids)).1.length + (1 + gids.length) := by
  have hkeys0 : (mapKeys [((0 : Nat), (0 : Nat))]).Nodup := by simp [mapKeys]
  obtain ⟨hnd, hfs⟩ := renumberInitGo_keys gids [(0, 0)] [0] hkeys0
  have hlen1 : (renumberInitGo ([(0, 0)], [0]) gids).1.length
      = ({0} ∪ gids.toFinset : Finset ℕ).card := by
    have hmapped : (renumberInitGo ([(0, 0)], [0]) gids).1.length
        = (mapKeys (renumberInitGo ([(0, 0)], [0]) gids).1).length := by
      simp [mapKeys]
    rw [hmapped, ← List.toFinset_card_of_nodup hnd, hfs]
    have hzero : (mapKeys [((0 : Nat), (0 : Nat))]).toFinset = ({0} : Finset ℕ) := by
      simp [mapKeys]
    rw [hzero]
  have hlen2 : (renumberInitGo ([(0, 0)], [0]) gids).2.length = 1 + gids.length := by
    rw [renumberInitGo_snd]
    simp [Nat.add_comm]
  have hdiff := renumberCompoundGo_diff font loaded
    (renumberInitGo ([(0, 0)], [0]) gids).1 (renumberInitGo ([(0, 0)], [0]) gids).2
  simp only [Prod.mk.eta] at hdiff
  rw [renumberCompound, renumberInit]
  omega

/-- C10 (confirmed): the renumbering appends one `m_orderedGIDs` entry
per caller GID unconditionally while the index-map insert is skipped
for duplicates and for glyph 0, so the ordered list exceeds the index
map by exactly the redundancy of the caller's list; the glyph count
written into `maxp` is the loaded-closure size, and the per-entry
`hmtx`/`glyf` writes duplicate records whenever the ordered list has
duplicates.  Concretely, `gidList = [10, 10]` on the scenario-S5 font
yields six ordered entries over a five-glyph closure, with `maxp`
reporting 5 and the `hmtx` and `glyf` record lists containing glyph 10
twice; with a duplicate-free, zero-free list the ordered length equals
the index-map size. -/
theorem subsetGlyphs_redundant_entries :
    (∀ (font : ModelFont) (gids loaded : List Nat),
      (renumberCompound font loaded (renumberInit gids)).2.length
          + ({0} ∪ gids.toFinset : Finset ℕ).card
        = (renumberCompound font loaded (renumberInit gids)).1.length + (1 + gids.length)) ∧
    (∀ (font : ModelFont) (gids loaded : List Nat),
      ¬ (0 :: gids).Nodup →
      ¬ (hmtxRecords (renumberCompound font loaded (renumberInit gids)).2).Nodup) ∧
    (∀ (font : ModelFont) (gids loaded : List Nat),
      (0 :: gids).Nodup →
      (renumberCompound font loaded (renumberInit gids)).2.length
        = (renumberCompound font loaded (renumberInit gids)).1.length) ∧
    subsetGlyphs exampleFont [10, 10] 20 =
      some (.ok ([0, 3, 5, 7, 10], [(0, 0), (10, 1), (3, 2), (5, 3), (7, 4)],
        [0, 10, 10, 3, 5, 7])) ∧
    maxpNumGlyphs [0, 3, 5, 7, 10] = 5 ∧
    ¬ (hmtxRecords [0, 10, 10, 3, 5, 7]).Nodup ∧
    glyfRecords exampleFont [0, 10, 10, 3, 5, 7] = [0, 10, 10, 3, 5, 7] := by
  refine ⟨renumber_count_law, ?_, ?_, ?_, rfl, by decide, ?_⟩
  · intro font gids loaded hnd hcontra
    obtain ⟨rest, hrest⟩ := renumberCompoundGo_snd_extends font loaded (renumberInit gids)
    have hform : (renumberCompound font loaded (renumberInit gids)).2
        = (0 :: gids) ++ rest := by
      rw [renumberCompound, hrest, renumberInit, renumberInitGo_snd]
      simp
    rw [hmtxRecords, hform] at hcontra
    exact hnd (List.Nodup.of_append_left hcontra)
  · intro font gids loaded hnd
    have hcount := renumber_count_law font gids loaded
    have hcard : ({0} ∪ gids.toFinset : Finset ℕ).card = 1 + gids.length := by
      have h1 : ({0} ∪ gids.toFinset : Finset ℕ) = (0 :: gids).toFinset := by
        rw [List.toFinset_cons, Finset.insert_eq]
      rw [h1, List.toFinset_card_of_nodup hnd]
      simp [Nat.add_comm]
    omega
  · simp [subsetGlyphs, subsetLoadPhase, loadGIDFuel, loadGIDListFuel, exampleFont,
      sortedInsertNat, renumberCompound, renumberInit, renumberInitGo, renumberCompoundGo,
      renumberComponentsGo, mapInsertIfAbsent, mapLookup]
  · simp [glyfRecords, exampleFont]

/-- Witness for the hypothesised parts of the C10 theorem, at the
scenario-S5 font: `[10, 10]` (a duplicate) makes the ordered output
non-duplicate-free, while `[10]` (duplicate-free and zero-free) makes
the ordered length equal the index-map size. -/
theorem subsetGlyphs_redundant_entries_witness :
    (¬ ((0 : Nat) :: [10, 10]).Nodup) ∧
    ¬ (hmtxRecords (renumberCompound exampleFont [0, 3, 5, 7, 10]
        (renumberInit [10, 10])).2).Nodup ∧
    ((0 : Nat) :: [10]).Nodup ∧
    (renumberCompound exampleFont [0, 3, 5, 7, 10] (renumberInit [10])).2.length
      = (renumberCompound exampleFont [0, 3, 5, 7, 10] (renumberInit [10])).1.length :=
  ⟨by decide,
   subsetGlyphs_redundant_entries.2.1 exampleFont [10, 10] [0, 3, 5, 7, 10] (by decide),
   by decide,
   subsetGlyphs_redundant_entries.2.2.1 exampleFont [10] [0, 3, 5, 7, 10] (by decide)⟩
